import Mathlib

/-!
Verification of the fixed-timestep physics core of `GroupAssignment/group.js`
(`Body` and `Simulation`).  Scalars are modelled as exact rationals (JS numbers
are IEEE doubles; the spec's arithmetic claims are stated in exact arithmetic).
The external tiny-graphics linear-algebra collaborator (`Vector`, `Mat4`) is
modelled from the spec where its operations are load-bearing; the per-step
update hook (`update_state` of a subclass) is a function parameter, and the
`while` loop of `simulate` is given explicit fuel, returning `none` exactly
when the loop fails to exit within the fuel.
-/

/-- Modelled from the spec: 3-component vector of the external tiny-graphics
library, as a function from `Fin 3` to ℚ. -/
abbrev Vec3 := Fin 3 → ℚ

/-- Modelled from the spec: 4-component homogeneous vector of the external
tiny-graphics library. -/
abbrev Vec4 := Fin 4 → ℚ

/-- Modelled from the spec: 4×4 matrix of the external tiny-graphics library. -/
abbrev Mat4 := Matrix (Fin 4) (Fin 4) ℚ

/-- Modelled from the spec: tiny-graphics `Vector.times(s)`, componentwise
scalar multiplication. -/
def Vec3.times (v : Vec3) (s : ℚ) : Vec3 := fun i => v i * s

/-- Modelled from the spec: tiny-graphics `a.mix(b, s)`, the linear
interpolation `(1-s)·a + s·b` taken componentwise. -/
def Vec3.mix (a b : Vec3) (s : ℚ) : Vec3 := fun i => (1 - s) * a i + s * b i

/-- Modelled from the spec: tiny-graphics `p.to4(1)`, appending homogeneous
coordinate 1. -/
def Vec3.to4 (p : Vec3) : Vec4 := ![p 0, p 1, p 2, 1]

/-- Modelled from the spec: tiny-graphics `v.to3()`, dropping the homogeneous
coordinate. -/
def Vec4.to3 (v : Vec4) : Vec3 := ![v 0, v 1, v 2]

/-- Modelled from the spec: tiny-graphics `Mat4.translation(x, y, z)`. -/
def Mat4.translation (v : Vec3) : Mat4 :=
  Matrix.of ![![1, 0, 0, v 0], ![0, 1, 0, v 1], ![0, 0, 1, v 2], ![0, 0, 0, 1]]

/-- Modelled from the spec: tiny-graphics `Mat4.scale(x, y, z)`. -/
def Mat4.scaleV (v : Vec3) : Mat4 :=
  Matrix.of ![![v 0, 0, 0, 0], ![0, v 1, 0, 0], ![0, 0, v 2, 0], ![0, 0, 0, 1]]

/-- JavaScript `Math.sign`, yielding -1, 0 or 1 as a rational. -/
def jsSign (q : ℚ) : ℚ := if 0 < q then 1 else if q < 0 then -1 else 0

/-- The `{center, rotation}` snapshot a `Body` stores in `this.previous`. -/
structure BodyState where
  center : Vec3
  rotation : Mat4
deriving DecidableEq

/-- The kinematic state of `Body` (group.js).  The opaque drawable handle and
material are external collaborator data and are omitted; `inverse` is the
cached inverse written by `Group.update_state` before collision queries. -/
structure Body where
  size : Vec3
  user_projectile : Bool
  hit : Bool
  center : Vec3
  rotation : Mat4
  previous : BodyState
  linear_velocity : Vec3
  angular_velocity : ℚ
  spin_axis : Vec3
  drawn_location : Mat4
  inverse : Mat4
deriving DecidableEq

/-- `Body.intersect_cube(p, margin)` (group.js): every component of `p` lies
between `-1 - margin` and `1 + margin`. -/
def Body.intersect_cube (p : Vec3) (margin : ℚ) : Bool :=
  decide (∀ i : Fin 3, -1 - margin ≤ p i ∧ p i ≤ 1 + margin)

/-- `Body.intersect_sphere(p, margin)` (group.js): `p.dot(p) < 1 + margin`. -/
def Body.intersect_sphere (p : Vec3) (margin : ℚ) : Bool :=
  decide (p 0 * p 0 + p 1 * p 1 + p 2 * p 2 < 1 + margin)

/-- `Body.emplace(location_matrix, linear_velocity, angular_velocity, spin_axis)`
(group.js): decompose the pose into translation part and the rest, and reset
`previous` to the same state. -/
def Body.emplace (b : Body) (location_matrix : Mat4) (lv : Vec3) (av : ℚ)
    (spin : Vec3) : Body :=
  let c := Vec4.to3 (Matrix.mulVec location_matrix ![0, 0, 0, 1])
  { b with
    center := c
    rotation := Mat4.translation (Vec3.times c (-1)) * location_matrix
    previous := ⟨c, Mat4.translation (Vec3.times c (-1)) * location_matrix⟩
    drawn_location := location_matrix
    linear_velocity := lv
    angular_velocity := av
    spin_axis := spin }

/-- `Body.advance(time_amount)` (group.js): snapshot `center`/`rotation` into
`previous`, then forward-Euler integrate.  The external `Mat4.rotation`
axis-angle matrix builder is supplied as the parameter `rot` (its
trigonometric content is irrelevant to every claim and not representable
over ℚ). -/
def Body.advance (rot : ℚ → Vec3 → Mat4) (time_amount : ℚ) (b : Body) : Body :=
  { b with
    previous := ⟨b.center, b.rotation⟩
    center := fun i => b.center i + Vec3.times b.linear_velocity time_amount i
    rotation := rot (time_amount * b.angular_velocity) b.spin_axis * b.rotation }

/-- `Body.blend_rotation(alpha)` (group.js): rows of `previous.rotation` mixed
with the rows of `rotation`, i.e. the entrywise blend
`(1-alpha)·previous.rotation + alpha·rotation`. -/
def Body.blend_rotation (alpha : ℚ) (b : Body) : Mat4 :=
  Matrix.of fun i j => (1 - alpha) * b.previous.rotation i j + alpha * b.rotation i j

/-- `Body.blend_state(alpha)` (group.js): recompute `drawn_location` as
`translation(mix(previous.center, center, alpha)) · blend_rotation(alpha) · scale(size)`. -/
def Body.blend_state (alpha : ℚ) (b : Body) : Body :=
  { b with
    drawn_location :=
      Mat4.translation (Vec3.mix b.previous.center b.center alpha) *
        Body.blend_rotation alpha b * Mat4.scaleV b.size }

/-- The `{intersect_test, points, leeway}` collider descriptor consumed by
`check_if_colliding`; `points` models `points.arrays.position`. -/
structure Collider where
  intersect_test : Vec3 → ℚ → Bool
  points : List Vec3
  leeway : ℚ

/-- `Body.check_if_colliding(b, collider)` (group.js).  JS reference equality
`this == b` is modelled by structural equality; `this.inverse` is the cached
inverse field; the transform is
`T = this.inverse · (b.drawn_location · scale(1, 1.5, 1))`. -/
def Body.check_if_colliding (a b : Body) (collider : Collider) : Bool :=
  if a = b then false
  else
    let T := a.inverse * (b.drawn_location * Mat4.scaleV ![1, 3/2, 1])
    collider.points.any fun p =>
      collider.intersect_test (Vec4.to3 (Matrix.mulVec T (Vec3.to4 p))) collider.leeway

/-- The time-stepping state of `Simulation` (group.js), field for field as in
its constructor; the bodies carry the physical state. -/
structure Simulation where
  time_accumulator : ℚ
  time_scale : ℚ
  t : ℚ
  dt : ℚ
  bodies : List Body
  steps_taken : ℕ
deriving DecidableEq

/-- The state built by `Simulation`'s constructor:
`{time_accumulator: 0, time_scale: 1, t: 0, dt: 1/20, bodies: [], steps_taken: 0}`. -/
def Simulation.mkNew : Simulation :=
  { time_accumulator := 0, time_scale := 1, t := 0, dt := 1/20, bodies := [], steps_taken := 0 }

/-- `Simulation.update_state(dt)` of the abstract base class (group.js):
`throw "Override this"`, modelled as an `Except` error; it never returns a
value. -/
def Simulation.update_state (dt : ℚ) : Except String Unit :=
  Except.error "Override this"

/-- One iteration of the `while` loop of `Simulation.simulate` (group.js):
run the subclass hook on the bodies, `advance` every body by `dt`, then move
`t`, `time_accumulator` and `steps_taken`.  `sgn` is `Math.sign` of the scaled
frame time. -/
def Simulation.stepOnce (hook : ℚ → List Body → List Body) (rot : ℚ → Vec3 → Mat4)
    (sgn : ℚ) (s : Simulation) : Simulation :=
  { s with
    bodies := (hook s.dt s.bodies).map (Body.advance rot s.dt)
    t := s.t + sgn * s.dt
    time_accumulator := s.time_accumulator - sgn * s.dt
    steps_taken := s.steps_taken + 1 }

/-- The `while (Math.abs(this.time_accumulator) >= this.dt)` loop of
`Simulation.simulate`, with explicit fuel: `none` means the loop had not
exited after `fuel` iterations. -/
def Simulation.simLoop (hook : ℚ → List Body → List Body) (rot : ℚ → Vec3 → Mat4)
    (sgn : ℚ) : ℕ → Simulation → Option Simulation
  | 0, s => if |s.time_accumulator| < s.dt then some s else none
  | fuel + 1, s =>
      if |s.time_accumulator| < s.dt then some s
      else Simulation.simLoop hook rot sgn fuel (Simulation.stepOnce hook rot sgn s)

/-- The tail of `Simulation.simulate` (group.js): store the interpolation
factor `alpha = time_accumulator / dt` and `blend_state` every body with it. -/
def Simulation.blendAll (s : Simulation) : Simulation :=
  { s with bodies := s.bodies.map (Body.blend_state (s.time_accumulator / s.dt)) }

/-- `Simulation.simulate(frame_time)` (group.js): scale the frame time, clamp
and accumulate with `min(frame_time, 0.1)`, run the catch-up loop, then blend
every body with `alpha = time_accumulator / dt`. -/
def Simulation.simulate (hook : ℚ → List Body → List Body) (rot : ℚ → Vec3 → Mat4)
    (fuel : ℕ) (frame_time : ℚ) (s : Simulation) : Option Simulation :=
  (Simulation.simLoop hook rot (jsSign (s.time_scale * frame_time)) fuel
      { s with time_accumulator :=
          s.time_accumulator + min (s.time_scale * frame_time) (1/10) }).map
    Simulation.blendAll

/-- A finite sequence of `simulate` calls, failing if any call fails. -/
def Simulation.simulateSeq (hook : ℚ → List Body → List Body) (rot : ℚ → Vec3 → Mat4)
    (fuel : ℕ) : List ℚ → Simulation → Option Simulation
  | [], s => some s
  | ft :: rest, s =>
      (Simulation.simulate hook rot fuel ft s).bind (Simulation.simulateSeq hook rot fuel rest)

/-- A hook that leaves the bodies unchanged (used to instantiate theorems at
concrete inputs). -/
def hookId : ℚ → List Body → List Body := fun _ bs => bs

/-- A concrete instantiation of the external axis-angle matrix builder. -/
def rotId : ℚ → Vec3 → Mat4 := fun _ _ => 1

/-- A concrete body at the origin moving along the x-axis. -/
def b0 : Body :=
  { size := ![1, 1, 1]
    user_projectile := false
    hit := false
    center := ![0, 0, 0]
    rotation := 1
    previous := ⟨![0, 0, 0], 1⟩
    linear_velocity := ![1, 0, 0]
    angular_velocity := 0
    spin_axis := ![0, 1, 0]
    drawn_location := 1
    inverse := 1 }

/-- A body distinct from `b0` (its `hit` flag differs) with the same pose. -/
def bHit : Body := { b0 with hit := true }

/-- A concrete collider sampling only the origin against the cube test. -/
def colOrigin : Collider :=
  { intersect_test := Body.intersect_cube, points := [![0, 0, 0]], leeway := 0 }

/-! Helper lemmas about the stepping loop. -/

theorem Simulation.blendAll_time_accumulator (s : Simulation) :
    (Simulation.blendAll s).time_accumulator = s.time_accumulator := rfl

theorem Simulation.blendAll_dt (s : Simulation) : (Simulation.blendAll s).dt = s.dt := rfl

theorem Simulation.blendAll_time_scale (s : Simulation) :
    (Simulation.blendAll s).time_scale = s.time_scale := rfl

theorem Simulation.blendAll_t (s : Simulation) : (Simulation.blendAll s).t = s.t := rfl

theorem Simulation.blendAll_steps_taken (s : Simulation) :
    (Simulation.blendAll s).steps_taken = s.steps_taken := rfl

/-- The loop can only return normally with less than one `dt` of accumulated
time left. -/
theorem Simulation.simLoop_some_abs (hook : ℚ → List Body → List Body)
    (rot : ℚ → Vec3 → Mat4) (sgn : ℚ) :
    ∀ (fuel : ℕ) (s s' : Simulation),
      Simulation.simLoop hook rot sgn fuel s = some s' →
      |s'.time_accumulator| < s'.dt := by
  intro fuel
  induction fuel with
  | zero =>
    intro s s' h
    simp only [Simulation.simLoop] at h
    split at h
    · injection h with h; subst h; assumption
    · cases h
  | succ n ih =>
    intro s s' h
    simp only [Simulation.simLoop] at h
    split at h
    · injection h with h; subst h; assumption
    · exact ih _ _ h

/-- If the accumulator is already below `dt`, the loop exits at once. -/
theorem Simulation.simLoop_exit (hook : ℚ → List Body → List Body)
    (rot : ℚ → Vec3 → Mat4) (sgn : ℚ) (fuel : ℕ) (s : Simulation)
    (h : |s.time_accumulator| < s.dt) :
    Simulation.simLoop hook rot sgn fuel s = some s := by
  cases fuel <;> simp [Simulation.simLoop, h]

/-- What one loop run preserves and how it moves the accumulator: `dt` and
`time_scale` are untouched, and the accumulator decreases by `sgn·dt` per
step taken. -/
theorem Simulation.simLoop_track (hook : ℚ → List Body → List Body)
    (rot : ℚ → Vec3 → Mat4) (sgn : ℚ) :
    ∀ (fuel : ℕ) (s s' : Simulation),
      Simulation.simLoop hook rot sgn fuel s = some s' →
      s'.dt = s.dt ∧ s'.time_scale = s.time_scale ∧
        s'.time_accumulator =
          s.time_accumulator -
            sgn * s.dt * ((s'.steps_taken : ℚ) - (s.steps_taken : ℚ)) ∧
        s.steps_taken ≤ s'.steps_taken := by
  intro fuel
  induction fuel with
  | zero =>
    intro s s' h
    simp only [Simulation.simLoop] at h
    split at h
    · injection h with h; subst h
      exact ⟨rfl, rfl, by ring, le_refl _⟩
    · cases h
  | succ n ih =>
    intro s s' h
    simp only [Simulation.simLoop] at h
    split at h
    · injection h with h; subst h
      exact ⟨rfl, rfl, by ring, le_refl _⟩
    · obtain ⟨hdt, hts, hacc, hle⟩ := ih _ _ h
      refine ⟨hdt, hts, ?_, le_trans (by simp [Simulation.stepOnce]) hle⟩
      simp only [Simulation.stepOnce] at hdt hts hacc hle
      rw [hacc]
      push_cast
      ring

/-- With `Math.sign(frame_time) = 0` the loop decrement vanishes: the loop
either exits at once or spins forever. -/
theorem Simulation.simLoop_zero_sign_none (hook : ℚ → List Body → List Body)
    (rot : ℚ → Vec3 → Mat4) :
    ∀ (fuel : ℕ) (s : Simulation), s.dt ≤ |s.time_accumulator| →
      Simulation.simLoop hook rot 0 fuel s = none := by
  intro fuel
  induction fuel with
  | zero =>
    intro s h
    simp [Simulation.simLoop, if_neg (not_lt.mpr h)]
  | succ n ih =>
    intro s h
    simp only [Simulation.simLoop, if_neg (not_lt.mpr h)]
    exact ih _ (by simpa [Simulation.stepOnce] using h)

/-! Claim theorems. -/

/-- C1: for every Simulation state and every frame_time argument, whenever
`step(frame_time)` (the source's `simulate`) returns, the accumulator
satisfies `|time_accumulator| < dt`. -/
theorem simulate_accumulator_invariant (hook : ℚ → List Body → List Body)
    (rot : ℚ → Vec3 → Mat4) (fuel : ℕ) (frame_time : ℚ) (s s' : Simulation)
    (h : Simulation.simulate hook rot fuel frame_time s = some s') :
    |s'.time_accumulator| < s'.dt := by
  unfold Simulation.simulate at h
  obtain ⟨s2, h2, rfl⟩ := Option.map_eq_some'.mp h
  have := Simulation.simLoop_some_abs hook rot _ _ _ _ h2
  simpa [Simulation.blendAll_time_accumulator, Simulation.blendAll_dt] using this

unseal Rat.mul Rat.add Rat.sub Rat.inv in
theorem simulate_accumulator_invariant_witness :
    |(⟨0, 1, 1/10, 1/20, [], 2⟩ : Simulation).time_accumulator| <
      (⟨0, 1, 1/10, 1/20, [], 2⟩ : Simulation).dt :=
  simulate_accumulator_invariant hookId rotId 5 (3/25) Simulation.mkNew _ (by decide)

unseal Rat.mul Rat.add Rat.sub Rat.inv in
/-- C2 counterexample: with `dt = 1/20`, `time_scale = 1` and
`time_accumulator = 0`, a single `step(0.12)` call does NOT leave leftover
accumulator `0.02`: the clamp `min(0.12, 0.1)` admits only `0.1`, and the
leftover accumulator is `0`. -/
theorem simulate_012_leftover_refuted :
    (Simulation.simulate hookId rotId 5 (3/25) Simulation.mkNew).map
        Simulation.time_accumulator = some 0 ∧
    some (0 : ℚ) ≠ some (1/50) := by
  constructor
  · decide
  · decide

unseal Rat.mul Rat.add Rat.sub Rat.inv in
/-- C2 (amended): with `dt = 1/20` and `time_scale = 1`, a single `step(0.12)`
call starting from `time_accumulator = 0` raises the accumulator only to
`min(0.12, 0.1) = 0.1`, takes exactly two fixed steps, leaves leftover
accumulator `0`, and blends every Body with `alpha = 0`. -/
theorem simulate_012_clamped_scenario :
    Simulation.simulate hookId rotId 5 (3/25) { Simulation.mkNew with bodies := [b0] } =
      some { Simulation.mkNew with
        t := 1/10, steps_taken := 2,
        bodies := [Body.blend_state 0
          (Body.advance rotId (1/20) (Body.advance rotId (1/20) b0))] } ∧
    min ((1 : ℚ) * (3/25)) (1/10) = 1/10 := by
  constructor
  · decide
  · decide

unseal Rat.mul Rat.add Rat.sub Rat.inv in
/-- C3 counterexample: from the freshly constructed state, a single call
`step(-1)` with `time_scale = 1` takes 20 fixed steps, far more than
`0.1/dt = 2`: the clamp `min(frame_time, 0.1)` does not bound negative frame
times, so the claimed bound fails for negative `frame_time`. -/
theorem simulate_negative_frame_time_steps_refuted :
    Simulation.simulate hookId rotId 25 (-1) Simulation.mkNew =
      some ⟨0, 1, -1, 1/20, [], 20⟩ ∧
    ¬ ((⟨0, 1, -1, 1/20, [], 20⟩ : Simulation).steps_taken ≤
        Simulation.mkNew.steps_taken + 2) := by
  constructor
  · decide
  · decide

/-- With positive sign, a loop run whose entry accumulator is strictly
between `-dt` and `(n+1)·dt` takes at most `n` steps. -/
theorem Simulation.simLoop_steps_le_of_pos (hook : ℚ → List Body → List Body)
    (rot : ℚ → Vec3 → Mat4) :
    ∀ (fuel n : ℕ) (s s' : Simulation), 0 < s.dt →
      -s.dt < s.time_accumulator →
      s.time_accumulator < ((n : ℚ) + 1) * s.dt →
      Simulation.simLoop hook rot 1 fuel s = some s' →
      s'.steps_taken ≤ s.steps_taken + n := by
  intro fuel
  induction fuel with
  | zero =>
    intro n s s' _ _ _ h
    simp only [Simulation.simLoop] at h
    split at h
    · injection h with h; subst h; exact Nat.le_add_right _ _
    · cases h
  | succ m ih =>
    intro n s s' hdt hlow hhigh h
    simp only [Simulation.simLoop] at h
    split at h
    · injection h with h; subst h; exact Nat.le_add_right _ _
    · rename_i hcond
      have habs : s.dt ≤ |s.time_accumulator| := not_lt.mp hcond
      have hge : s.dt ≤ s.time_accumulator := by
        rcases le_abs.mp habs with h' | h'
        · exact h'
        · linarith
      obtain ⟨n', rfl⟩ : ∃ n', n = n' + 1 := by
        cases n with
        | zero => exfalso; push_cast at hhigh; linarith
        | succ k => exact ⟨k, rfl⟩
      have hstep := ih n' (Simulation.stepOnce hook rot 1 s) s'
        (by simpa [Simulation.stepOnce] using hdt)
        (by simp only [Simulation.stepOnce]; linarith)
        (by simp only [Simulation.stepOnce]; push_cast at hhigh ⊢; linarith)
        h
      simp only [Simulation.stepOnce] at hstep
      omega

/-- C3 (amended): from a reachable state (`dt = 1/20` as constructed and
`|time_accumulator| < dt` on entry), a single `step(frame_time)` call whose
scaled frame time `time_scale·frame_time` is nonnegative increases
`steps_taken` by at most `0.1/dt = 2`. -/
theorem simulate_steps_per_call_bounded (hook : ℚ → List Body → List Body)
    (rot : ℚ → Vec3 → Mat4) (fuel : ℕ) (frame_time : ℚ) (s s' : Simulation)
    (hdt : s.dt = 1/20) (hacc : |s.time_accumulator| < s.dt)
    (hsc : 0 ≤ s.time_scale * frame_time)
    (h : Simulation.simulate hook rot fuel frame_time s = some s') :
    s'.steps_taken ≤ s.steps_taken + 2 := by
  unfold Simulation.simulate at h
  obtain ⟨s2, h2, rfl⟩ := Option.map_eq_some'.mp h
  rw [Simulation.blendAll_steps_taken]
  rcases eq_or_lt_of_le hsc with h0 | h0
  · have hsgn : jsSign (s.time_scale * frame_time) = 0 := by
      rw [← h0]; norm_num [jsSign]
    have hmin : min (s.time_scale * frame_time) (1/10) = s.time_scale * frame_time := by
      rw [← h0]; norm_num
    rw [hsgn, hmin, ← h0, add_zero] at h2
    have hexit := Simulation.simLoop_exit hook rot 0 fuel
      (Simulation.mk s.time_accumulator s.time_scale s.t s.dt s.bodies s.steps_taken)
      (by simpa using hacc)
    rw [hexit] at h2
    injection h2 with h2
    rw [← h2]
    exact Nat.le_add_right _ _
  · have hsgn : jsSign (s.time_scale * frame_time) = 1 := by
      simp [jsSign, h0]
    rw [hsgn] at h2
    have hmpos : 0 < min (s.time_scale * frame_time) (1/10) :=
      lt_min h0 (by norm_num)
    have hmle : min (s.time_scale * frame_time) (1/10) ≤ 1/10 := min_le_right _ _
    obtain ⟨hlo, hhi⟩ := abs_lt.mp hacc
    have := Simulation.simLoop_steps_le_of_pos hook rot fuel 2
      { s with time_accumulator :=
          s.time_accumulator + min (s.time_scale * frame_time) (1/10) } s2
      (by simpa using (by rw [hdt]; norm_num : (0 : ℚ) < s.dt))
      (by simp only; linarith)
      (by simp only; rw [hdt] at hhi ⊢; push_cast; linarith)
      h2
    simpa using this

unseal Rat.mul Rat.add Rat.sub Rat.inv in
theorem simulate_steps_per_call_bounded_witness :
    (⟨0, 1, 1/10, 1/20, [], 2⟩ : Simulation).steps_taken ≤
      Simulation.mkNew.steps_taken + 2 :=
  simulate_steps_per_call_bounded hookId rotId 5 (3/25) Simulation.mkNew _
    rfl (by norm_num [Simulation.mkNew]) (by norm_num [Simulation.mkNew]) (by decide)

/-- One `simulate` call with `time_scale = 1` and an unclamped nonnegative
frame time: the sum `time_accumulator + dt·steps_taken` advances by exactly
`frame_time`. -/
theorem Simulation.simulate_step_track (hook : ℚ → List Body → List Body)
    (rot : ℚ → Vec3 → Mat4) (fuel : ℕ) (ft : ℚ) (s s' : Simulation)
    (h0 : 0 ≤ ft) (h1 : ft ≤ 1/10) (hts : s.time_scale = 1)
    (hacc : |s.time_accumulator| < s.dt)
    (h : Simulation.simulate hook rot fuel ft s = some s') :
    s'.time_scale = 1 ∧ s'.dt = s.dt ∧ |s'.time_accumulator| < s'.dt ∧
      s'.time_accumulator + s.dt * (s'.steps_taken : ℚ) =
        s.time_accumulator + s.dt * (s.steps_taken : ℚ) + ft := by
  unfold Simulation.simulate at h
  rw [hts, one_mul, min_eq_left h1] at h
  obtain ⟨s2, h2, rfl⟩ := Option.map_eq_some'.mp h
  have habs := Simulation.simLoop_some_abs hook rot _ _ _ _ h2
  obtain ⟨hdt, hts2, hacc2, hle2⟩ := Simulation.simLoop_track hook rot _ _ _ _ h2
  simp only at hdt hts2 hacc2
  rcases eq_or_lt_of_le h0 with h0' | h0'
  · have hsgn : jsSign ft = 0 := by rw [← h0']; norm_num [jsSign]
    rw [hsgn, ← h0', add_zero] at h2
    have hexit := Simulation.simLoop_exit hook rot 0 fuel
      (Simulation.mk s.time_accumulator 1 s.t s.dt s.bodies s.steps_taken)
      (by simpa using hacc)
    rw [hexit] at h2
    injection h2 with h2
    rw [← h2]
    refine ⟨rfl, rfl, ?_, ?_⟩
    · simpa [Simulation.blendAll_time_accumulator, Simulation.blendAll_dt] using hacc
    · simp only [Simulation.blendAll_time_accumulator, Simulation.blendAll_steps_taken]
      rw [← h0']; ring
  · have hsgn : jsSign ft = 1 := by simp [jsSign, h0']
    rw [hsgn] at h2
    obtain ⟨hdt', hts2', hacc2', _⟩ := Simulation.simLoop_track hook rot _ _ _ _ h2
    simp only at hdt' hts2' hacc2'
    refine ⟨?_, ?_, ?_, ?_⟩
    · rw [Simulation.blendAll_time_scale, hts2']
    · rw [Simulation.blendAll_dt, hdt']
    · simpa [Simulation.blendAll_time_accumulator, Simulation.blendAll_dt] using habs
    · simp only [Simulation.blendAll_time_accumulator, Simulation.blendAll_steps_taken]
      rw [hacc2']
      ring

/-- Running a sequence of unclamped nonnegative `simulate` calls advances
`time_accumulator + dt·steps_taken` by exactly the total input time. -/
theorem Simulation.simulateSeq_track (hook : ℚ → List Body → List Body)
    (rot : ℚ → Vec3 → Mat4) (fuel : ℕ) :
    ∀ (l : List ℚ) (s s' : Simulation),
      (∀ ft ∈ l, 0 ≤ ft ∧ ft ≤ 1/10) → s.time_scale = 1 →
      |s.time_accumulator| < s.dt →
      Simulation.simulateSeq hook rot fuel l s = some s' →
      s'.dt = s.dt ∧ |s'.time_accumulator| < s'.dt ∧
        s'.time_accumulator + s.dt * (s'.steps_taken : ℚ) =
          s.time_accumulator + s.dt * (s.steps_taken : ℚ) + l.sum := by
  intro l
  induction l with
  | nil =>
    intro s s' _ _ hacc h
    simp only [Simulation.simulateSeq] at h
    injection h with h
    subst h
    exact ⟨rfl, hacc, by simp⟩
  | cons ft rest ih =>
    intro s s' hl hts hacc h
    simp only [Simulation.simulateSeq] at h
    obtain ⟨s1, h1, hrest⟩ := Option.bind_eq_some.mp h
    obtain ⟨hftl, hftr⟩ := hl ft (List.mem_cons_self ft rest)
    obtain ⟨hts1, hdt1, hacc1, heq1⟩ :=
      Simulation.simulate_step_track hook rot fuel ft s s1 hftl hftr hts hacc h1
    obtain ⟨hdt2, hacc2, heq2⟩ :=
      ih s1 s' (fun f hf => hl f (List.mem_cons_of_mem _ hf)) hts1 hacc1 hrest
    refine ⟨hdt2.trans hdt1, hacc2, ?_⟩
    rw [hdt1] at heq2
    rw [List.sum_cons]
    linarith

/-- C4: starting from the freshly constructed Simulation, for every finite
sequence of `step(frame_time)` calls with each `frame_time` in `[0, 0.1]`
(so the clamp never truncates) and total input time `T = l.sum`, the total
number `s` of fixed steps satisfies `|s·dt - T| < dt`. -/
theorem simulate_seq_steps_track_total_time (hook : ℚ → List Body → List Body)
    (rot : ℚ → Vec3 → Mat4) (fuel : ℕ) (l : List ℚ) (s' : Simulation)
    (hl : ∀ ft ∈ l, 0 ≤ ft ∧ ft ≤ 1/10)
    (h : Simulation.simulateSeq hook rot fuel l Simulation.mkNew = some s') :
    |(s'.steps_taken : ℚ) * (1/20) - l.sum| < 1/20 := by
  obtain ⟨hdt, hacc, heq⟩ :=
    Simulation.simulateSeq_track hook rot fuel l Simulation.mkNew s' hl rfl
      (by norm_num [Simulation.mkNew]) h
  have hdt' : s'.dt = 1/20 := hdt
  rw [hdt'] at hacc
  have : (s'.steps_taken : ℚ) * (1/20) - l.sum = -s'.time_accumulator := by
    have hmk : Simulation.mkNew.time_accumulator = 0 := rfl
    have hmk2 : (Simulation.mkNew.steps_taken : ℚ) = 0 := rfl
    have hmk3 : Simulation.mkNew.dt = 1/20 := rfl
    rw [hmk, hmk2, hmk3] at heq
    linarith
  rw [this, abs_neg]
  exact hacc

unseal Rat.mul Rat.add Rat.sub Rat.inv in
theorem simulate_seq_steps_track_total_time_witness :
    |(((⟨1/25, 1, 1/10, 1/20, [], 2⟩ : Simulation).steps_taken : ℚ)) * (1/20) -
        ([1/10, 1/25] : List ℚ).sum| < 1/20 :=
  simulate_seq_steps_track_total_time hookId rotId 5 [1/10, 1/25] _
    (by decide) (by decide)

/-- Iterated `advance` with an unchanged velocity moves the center linearly
and never touches `linear_velocity`. -/
theorem Body.advance_iterate (rot : ℚ → Vec3 → Mat4) (dt : ℚ) (b : Body) :
    ∀ n : ℕ,
      ((Body.advance rot dt)^[n] b).center =
          b.center + Vec3.times b.linear_velocity ((n : ℚ) * dt) ∧
        ((Body.advance rot dt)^[n] b).linear_velocity = b.linear_velocity := by
  intro n
  induction n with
  | zero =>
    constructor
    · funext i
      simp [Vec3.times]
    · simp
  | succ n ih =>
    obtain ⟨hc, hv⟩ := ih
    rw [Function.iterate_succ_apply']
    constructor
    · funext i
      have hci := congrFun hc i
      simp only [Body.advance, Vec3.times, Pi.add_apply] at hci ⊢
      rw [hci, hv]
      push_cast
      ring
    · simp only [Body.advance, hv]

/-- C5: `advance(dt)` snapshots `center`/`rotation` into `previous` before
integrating, then sets `center := center + linear_velocity·dt`; iterating it
`n` times from an unchanged velocity gives
`center = initial_center + n·dt·linear_velocity`; and the concrete body at
the origin with velocity `(1,0,0)` after one `advance(0.1)` has
`previous.center = (0,0,0)` and `center = (0.1,0,0)`. -/
theorem advance_forward_euler (rot : ℚ → Vec3 → Mat4) (dt : ℚ) (b : Body) (n : ℕ) :
    (Body.advance rot dt b).previous = ⟨b.center, b.rotation⟩ ∧
    (Body.advance rot dt b).center = b.center + Vec3.times b.linear_velocity dt ∧
    ((Body.advance rot dt)^[n] b).center =
      b.center + Vec3.times b.linear_velocity ((n : ℚ) * dt) ∧
    (Body.advance rot (1/10) b0).previous.center = ![0, 0, 0] ∧
    (Body.advance rot (1/10) b0).center = ![1/10, 0, 0] := by
  refine ⟨rfl, rfl, (Body.advance_iterate rot dt b n).1, rfl, ?_⟩
  funext i
  fin_cases i <;> simp [Body.advance, Vec3.times, b0]

/-- C6: `blend_state(alpha)` writes
`translation(mix(previous.center, center, alpha)) · blend_rotation(alpha) · scale(size)`
into `drawn_location`; at `alpha = 0` this is exactly the previous state's
transform, at `alpha = 1` exactly the current state's transform. -/
theorem blend_state_formula_and_endpoints (b : Body) (alpha : ℚ) :
    (Body.blend_state alpha b).drawn_location =
      Mat4.translation (Vec3.mix b.previous.center b.center alpha) *
        Body.blend_rotation alpha b * Mat4.scaleV b.size ∧
    (Body.blend_state 0 b).drawn_location =
      Mat4.translation b.previous.center * b.previous.rotation * Mat4.scaleV b.size ∧
    (Body.blend_state 1 b).drawn_location =
      Mat4.translation b.center * b.rotation * Mat4.scaleV b.size := by
  refine ⟨rfl, ?_, ?_⟩
  · have h1 : Vec3.mix b.previous.center b.center 0 = b.previous.center := by
      funext i; simp [Vec3.mix]
    have h2 : Body.blend_rotation 0 b = b.previous.rotation := by
      ext i j; simp [Body.blend_rotation]
    show Mat4.translation (Vec3.mix b.previous.center b.center 0) *
        Body.blend_rotation 0 b * Mat4.scaleV b.size = _
    rw [h1, h2]
  · have h1 : Vec3.mix b.previous.center b.center 1 = b.center := by
      funext i; simp [Vec3.mix]
    have h2 : Body.blend_rotation 1 b = b.rotation := by
      ext i j; simp [Body.blend_rotation]
    show Mat4.translation (Vec3.mix b.previous.center b.center 1) *
        Body.blend_rotation 1 b * Mat4.scaleV b.size = _
    rw [h1, h2]

unseal Rat.mul Rat.add Rat.sub Rat.inv in
/-- C7: `intersect_cube(p, margin)` is true exactly when every component of
`p` lies in the closed interval `[-1-margin, 1+margin]`; the boundary point
`(1,1,1)` passes with margin 0 and `(1.01, 0, 0)` fails. -/
theorem intersect_cube_box (p : Vec3) (margin : ℚ) :
    (Body.intersect_cube p margin = true ↔
      ∀ i : Fin 3, -1 - margin ≤ p i ∧ p i ≤ 1 + margin) ∧
    Body.intersect_cube ![1, 1, 1] 0 = true ∧
    Body.intersect_cube ![101/100, 0, 0] 0 = false := by
  refine ⟨by simp [Body.intersect_cube], by decide, by decide⟩

/-- C8: `check_if_colliding(b, collider)` is false on the body itself;
otherwise, when the cached `inverse` field really is the two-sided inverse of
`drawn_location`, it returns true exactly when some sample point of
`collider.points`, pushed through
`T = inverse(drawn_location) · b.drawn_location · scale(1, 1.5, 1)`,
satisfies `intersect_test` with margin `leeway`. -/
theorem check_if_colliding_characterization (a b : Body) (collider : Collider)
    (hinv : a.inverse * a.drawn_location = 1 ∧ a.drawn_location * a.inverse = 1) :
    (a = b → Body.check_if_colliding a b collider = false) ∧
    (a ≠ b → (Body.check_if_colliding a b collider = true ↔
      ∃ p ∈ collider.points,
        collider.intersect_test
          (Vec4.to3 (Matrix.mulVec
            (a.inverse * (b.drawn_location * Mat4.scaleV ![1, 3/2, 1]))
            (Vec3.to4 p)))
          collider.leeway = true)) := by
  constructor
  · intro h
    simp [Body.check_if_colliding, h]
  · intro h
    simp only [Body.check_if_colliding, if_neg h]
    exact List.any_eq_true

unseal Rat.mul Rat.add Rat.sub Rat.inv in
theorem check_if_colliding_characterization_witness :
    Body.check_if_colliding b0 b0 colOrigin = false ∧
    Body.check_if_colliding b0 bHit colOrigin = true := by
  constructor
  · exact (check_if_colliding_characterization b0 b0 colOrigin
      ⟨by decide, by decide⟩).1 rfl
  · exact ((check_if_colliding_characterization b0 bHit colOrigin
      ⟨by decide, by decide⟩).2 (by decide)).mpr ⟨![0, 0, 0], by decide, by decide⟩

/-- C9: the abstract base `Simulation.update_state` fails immediately with
the error `"Override this"` and never returns normally. -/
theorem update_state_base_fails (dt : ℚ) :
    Simulation.update_state dt = Except.error "Override this" ∧
    (Simulation.update_state dt).toOption = none :=
  ⟨rfl, rfl⟩

/-- C10: from a state with `|time_accumulator| < dt`, `simulate(0)` returns
having taken zero fixed steps, leaving `t`, `steps_taken`, `time_accumulator`
and `dt` unchanged (the result is just the blend of the entry state), and
every body keeps its `center`, `rotation` and `previous` while
`drawn_location` is recomputed by `blend_state(time_accumulator / dt)`. -/
theorem simulate_zero_frame_time (hook : ℚ → List Body → List Body)
    (rot : ℚ → Vec3 → Mat4) (fuel : ℕ) (s : Simulation)
    (h : |s.time_accumulator| < s.dt) :
    Simulation.simulate hook rot fuel 0 s = some (Simulation.blendAll s) ∧
    (Simulation.blendAll s).bodies =
      s.bodies.map (Body.blend_state (s.time_accumulator / s.dt)) ∧
    (Simulation.blendAll s).t = s.t ∧
    (Simulation.blendAll s).steps_taken = s.steps_taken ∧
    (Simulation.blendAll s).time_accumulator = s.time_accumulator ∧
    (Simulation.blendAll s).dt = s.dt ∧
    (Simulation.blendAll s).bodies.map Body.center = s.bodies.map Body.center ∧
    (Simulation.blendAll s).bodies.map Body.rotation = s.bodies.map Body.rotation ∧
    (Simulation.blendAll s).bodies.map Body.previous = s.bodies.map Body.previous := by
  refine ⟨?_, rfl, rfl, rfl, rfl, rfl, ?_, ?_, ?_⟩
  · unfold Simulation.simulate
    have hft : s.time_scale * 0 = 0 := mul_zero _
    rw [hft]
    have hmin0 : min (0 : ℚ) (1/10) = 0 := by norm_num
    rw [hmin0, add_zero]
    have hexit := Simulation.simLoop_exit hook rot (jsSign 0) fuel
      (Simulation.mk s.time_accumulator s.time_scale s.t s.dt s.bodies s.steps_taken)
      (by simpa using h)
    rw [hexit]
    rfl
  · show (s.bodies.map (Body.blend_state (s.time_accumulator / s.dt))).map Body.center = _
    rw [List.map_map]
    rfl
  · show (s.bodies.map (Body.blend_state (s.time_accumulator / s.dt))).map Body.rotation = _
    rw [List.map_map]
    rfl
  · show (s.bodies.map (Body.blend_state (s.time_accumulator / s.dt))).map Body.previous = _
    rw [List.map_map]
    rfl

unseal Rat.mul Rat.add Rat.sub Rat.inv in
theorem simulate_zero_frame_time_witness :
    Simulation.simulate hookId rotId 3 0 { Simulation.mkNew with bodies := [b0] } =
      some (Simulation.blendAll { Simulation.mkNew with bodies := [b0] }) ∧
    (Simulation.blendAll { Simulation.mkNew with bodies := [b0] }).bodies =
      [b0].map (Body.blend_state ((0 : ℚ) / (1/20))) ∧
    (Simulation.blendAll { Simulation.mkNew with bodies := [b0] }).t = 0 ∧
    (Simulation.blendAll { Simulation.mkNew with bodies := [b0] }).steps_taken = 0 ∧
    (Simulation.blendAll { Simulation.mkNew with bodies := [b0] }).time_accumulator = 0 ∧
    (Simulation.blendAll { Simulation.mkNew with bodies := [b0] }).dt = 1/20 ∧
    (Simulation.blendAll { Simulation.mkNew with bodies := [b0] }).bodies.map Body.center =
      [b0].map Body.center ∧
    (Simulation.blendAll { Simulation.mkNew with bodies := [b0] }).bodies.map Body.rotation =
      [b0].map Body.rotation ∧
    (Simulation.blendAll { Simulation.mkNew with bodies := [b0] }).bodies.map Body.previous =
      [b0].map Body.previous :=
  simulate_zero_frame_time hookId rotId 3 { Simulation.mkNew with bodies := [b0] }
    (by norm_num [Simulation.mkNew])
